import Mathlib

/-!
Shallow embedding of `trivy-db-updater.go` (cicerops/trivy-updater).

The program is a refresh orchestrator for a Trivy vulnerability-database
cache directory.  We model:

* the metadata JSON document (`Doc`) and the Go struct it unmarshals into
  (`MetadataJSON`); Go's `encoding/json` semantics — unknown fields are
  ignored, missing fields default to the zero value, wrongly typed fields
  make `Unmarshal` fail — are reflected in `unmarshalDoc`.  A JSON object is
  modelled as a record of optional field values plus a list of extra
  (ignored) fields; timestamps are abstracted to `Int` (one integer per
  distinguishable `time.Time` value, `jtime`), a JSON number to `jnum`,
  any other JSON value to `jbad`.
* the filesystem state touched by the program (`FS`): the cache directory
  and the fixed single-slot backup location `/tmp/trivy_save`, each an
  `Option CacheTree` (`none` = the directory does not exist).  A
  `CacheTree` is the metadata file at `db/metadata.json` (`meta`) plus the
  opaque remaining bytes of the tree (`rest`).  `copyDir` in the program is
  always invoked with a freshly created empty destination, so a successful
  copy is modelled as replacing the destination with the source tree.
* the outcome of the external world (`Env`): which filesystem operations
  succeed, whether the `trivy` subprocess exits zero, what it leaves in the
  cache, the residues left by copies that fail midway, and the time sampled
  by `time.Now()` inside `updateMetadataNextUpdate`.
* the observable behaviour of one `main` invocation (`runCycle`): the final
  filesystem state together with a trace of operational events and printed
  status lines (`Ev`).
-/

namespace TrivyUpdater

/-- Go `4 * time.Hour` in nanoseconds, as used in
`metadata.NextUpdate = time.Now().Add(4 * time.Hour)`. -/
def fourHours : Int := 4 * 3600 * 1000000000

/-- A JSON value as far as this program can distinguish them: a number,
a string that parses as a timestamp (abstracted to its `time.Time` value),
or anything else (which makes `json.Unmarshal` fail for our fields). -/
inductive JVal where
  | jnum (n : Int)
  | jtime (t : Int)
  | jbad
deriving DecidableEq

/-- A metadata JSON document: the four recognised fields (present or
absent) plus any extra fields, which `json.Unmarshal` ignores. -/
structure Doc where
  version? : Option JVal
  nextUpdate? : Option JVal
  updatedAt? : Option JVal
  downloadedAt? : Option JVal
  extras : List (String × JVal)
deriving DecidableEq

/-- The Go struct `MetadataJSON` (trivy-db-updater.go lines 15-20). -/
structure MetadataJSON where
  Version : Int
  NextUpdate : Int
  UpdatedAt : Int
  DownloadedAt : Int
deriving DecidableEq

/-- Unmarshalling of one integer field: missing defaults to `0`,
a number is taken as is, anything else is a type error. -/
def parseIntField : Option JVal → Option Int
  | none => some 0
  | some (.jnum n) => some n
  | some _ => none

/-- Unmarshalling of one `time.Time` field: missing defaults to the zero
time, a timestamp string is taken as is, anything else is a type error. -/
def parseTimeField : Option JVal → Option Int
  | none => some 0
  | some (.jtime t) => some t
  | some _ => none

/-- `json.Unmarshal(file, &metadata)` on a syntactically valid document. -/
def unmarshalDoc (d : Doc) : Option MetadataJSON := do
  let v ← parseIntField d.version?
  let n ← parseTimeField d.nextUpdate?
  let u ← parseTimeField d.updatedAt?
  let w ← parseTimeField d.downloadedAt?
  pure ⟨v, n, u, w⟩

/-- `json.Marshal(metadata)`: emits exactly the four struct fields. -/
def marshalDoc (m : MetadataJSON) : Doc :=
  ⟨some (.jnum m.Version), some (.jtime m.NextUpdate),
   some (.jtime m.UpdatedAt), some (.jtime m.DownloadedAt), []⟩

/-- Content of a file: bytes that are a syntactically valid JSON object
(represented by the `Doc` they denote; `json.Marshal` output is the
canonical such document), or raw bytes that are not valid JSON. -/
inductive FileData where
  | json (d : Doc)
  | raw (b : List Nat)
deriving DecidableEq

/-- A directory tree as far as this program distinguishes it: the content
of `db/metadata.json` (`none` = that file does not exist) and the opaque
bytes of everything else in the tree. -/
structure CacheTree where
  meta : Option FileData
  rest : List Nat
deriving DecidableEq

/-- A freshly created empty directory (`os.MkdirAll`). -/
def emptyTree : CacheTree := ⟨none, []⟩

/-- The filesystem state the program touches: the cache directory and the
fixed backup slot `/tmp/trivy_save` (`none` = directory absent). -/
structure FS where
  cache : Option CacheTree
  backup : Option CacheTree
deriving DecidableEq

/-- Operational events and printed status lines of one invocation, in
program order. -/
inductive Ev where
  | backupAttempt
  | execAttempt
  | restoreAttempt
  | outErrReadMeta
  | outExecutingDownload
  | outUpdating
  | outErrBackup
  | outUpdateFailed
  | outErrRestore
  | outUpdateComplete
  | outNextUpdate (t : Int)
  | outUpToDate
  | outDelayNextUpdate (t : Int)
  | outBackedUp
  | outRestored
deriving DecidableEq

/-- The three operational events (entries into `backupTrivyDB`,
`runTrivyUpdateCommand`, `restoreTrivyDB`). -/
def Ev.isOp : Ev → Bool
  | .backupAttempt => true
  | .execAttempt => true
  | .restoreAttempt => true
  | _ => false

/-- Status lines that report a failure of the refresh machinery
(backup error, update failure, restore error). -/
def Ev.isFailureOut : Ev → Bool
  | .outErrBackup => true
  | .outUpdateFailed => true
  | .outErrRestore => true
  | _ => false

/-- Status lines that report a next-update time. -/
def Ev.isNextReport : Ev → Bool
  | .outNextUpdate _ => true
  | _ => false

/-- The operational events of a trace, in order. -/
def opEvents (t : List Ev) : List Ev := t.filter Ev.isOp

/-- Oracle for the external world during one invocation: which filesystem
operations succeed, what the `trivy` subprocess does, the residues left by
copies that fail midway, and the time `time.Now()` returns inside
`updateMetadataNextUpdate`. -/
structure Env where
  backupMkdirOk : Bool
  backupCopyOk : Bool
  backupResidue : CacheTree
  trivyOk : Bool
  trivySuccessCache : Option CacheTree
  trivyFailCache : Option CacheTree
  restoreRemoveOk : Bool
  restoreCopyOk : Bool
  restoreResidue : CacheTree
  stampWriteOk : Bool
  stampNow : Int
deriving DecidableEq

/-- `readMetadata` (lines 22-34): `os.ReadFile` on
`<cacheDir>/db/metadata.json` then `json.Unmarshal`.  Fails when the cache
directory or the file is absent, when the file is not valid JSON, or when
a recognised field has the wrong type. -/
def readMetadata : Option CacheTree → Option MetadataJSON
  | none => none
  | some c =>
    match c.meta with
    | some (.json d) => unmarshalDoc d
    | _ => none

/-- `updateMetadataNextUpdate` (lines 94-113): read the metadata, set
`NextUpdate = time.Now().Add(4h)`, marshal, write the file back.  Returns
the new cache content, whether the operation succeeded, and the printed
lines.  A failed `os.WriteFile` is modelled as leaving the file unchanged. -/
def updateMetadataNextUpdate (stampNow : Int) (writeOk : Bool) :
    Option CacheTree → Option CacheTree × Bool × List Ev
  | none => (none, false, [])
  | some ct =>
    match readMetadata (some ct) with
    | none => (some ct, false, [])
    | some m =>
      if writeOk then
        (some ⟨some (.json (marshalDoc
            ⟨m.Version, stampNow + fourHours, m.UpdatedAt, m.DownloadedAt⟩)), ct.rest⟩,
         true, [Ev.outDelayNextUpdate (stampNow + fourHours)])
      else (some ct, false, [])

/-- `backupTrivyDB` (lines 77-92): `os.RemoveAll(backupDir)` with its
error ignored (modelled as clearing the slot), `os.MkdirAll(backupDir)`,
then `copyDir(cacheDir, backupDir)` into the fresh empty slot.  A missing
cache directory makes `copyDir`'s `os.ReadDir(src)` fail before anything
is copied; a copy failing midway leaves `env.backupResidue` in the slot. -/
def backupTrivyDB (env : Env) (fs : FS) : FS × Bool × List Ev :=
  if env.backupMkdirOk then
    match fs.cache with
    | none => (⟨fs.cache, some emptyTree⟩, false, [])
    | some c =>
      if env.backupCopyOk then (⟨fs.cache, some c⟩, true, [Ev.outBackedUp])
      else (⟨fs.cache, some env.backupResidue⟩, false, [])
  else (⟨fs.cache, none⟩, false, [])

/-- `restoreTrivyDB` (lines 115-133): `os.RemoveAll(cacheDir)`, then
`copyDir(backupDir, cacheDir)` (whose `os.MkdirAll(dst)` recreates the
cache directory before `os.ReadDir(src)` can fail), then
`updateMetadataNextUpdate` on the restored metadata path.  The backup slot
is left in place.  A failed `os.RemoveAll` is modelled as leaving the
cache unchanged; a copy failing midway leaves `env.restoreResidue`. -/
def restoreTrivyDB (env : Env) (fs : FS) : FS × Bool × List Ev :=
  if env.restoreRemoveOk then
    match fs.backup with
    | none => (⟨some emptyTree, fs.backup⟩, false, [])
    | some b =>
      if env.restoreCopyOk then
        match updateMetadataNextUpdate env.stampNow env.stampWriteOk (some b) with
        | (c', true, evs) => (⟨c', fs.backup⟩, true, evs ++ [Ev.outRestored])
        | (c', false, evs) => (⟨c', fs.backup⟩, false, evs)
      else (⟨some env.restoreResidue, fs.backup⟩, false, [])
  else (fs, false, [])

/-- `runTrivyUpdateCommand` (lines 135-145): run the external `trivy`
subprocess against the cache directory; it may rewrite the cache both on
success and on failure. -/
def runTrivyUpdateCommand (env : Env) (fs : FS) : FS × Bool :=
  if env.trivyOk then (⟨env.trivySuccessCache, fs.backup⟩, true)
  else (⟨env.trivyFailCache, fs.backup⟩, false)

/-- The shared backup / execute / rollback body of `main`'s two refresh
branches (lines 156-172 and 177-193).  `completeMsg` distinguishes the
due branch, which additionally prints "Trivy DB update complete.".
On success the metadata is re-read; note that a failing re-read prints
nothing (`if err == nil` with no else branch). -/
def refreshCycle (env : Env) (fs : FS) (completeMsg : Bool) : FS × List Ev :=
  match backupTrivyDB env fs with
  | (fs1, false, ev1) => (fs1, Ev.backupAttempt :: ev1 ++ [Ev.outErrBackup])
  | (fs1, true, ev1) =>
    match runTrivyUpdateCommand env fs1 with
    | (fs2, true) =>
      let evs := Ev.backupAttempt :: ev1 ++ [Ev.execAttempt]
        ++ (if completeMsg then [Ev.outUpdateComplete] else [])
      match readMetadata fs2.cache with
      | some m => (fs2, evs ++ [Ev.outNextUpdate m.NextUpdate])
      | none => (fs2, evs)
    | (fs2, false) =>
      match restoreTrivyDB env fs2 with
      | (fs3, rok, ev3) =>
        (fs3, Ev.backupAttempt :: ev1
          ++ [Ev.execAttempt, Ev.outUpdateFailed, Ev.restoreAttempt]
          ++ ev3 ++ (if rok then [] else [Ev.outErrRestore]))

/-- `main` (lines 147-198): read the metadata; on a read failure take the
bootstrap refresh path, otherwise refresh only when
`time.Now().After(metadata.NextUpdate)` — the strict comparison
`now > NextUpdate` — and report the existing schedule otherwise.
`now` is the time sampled by the due check. -/
def runCycle (env : Env) (now : Int) (fs : FS) : FS × List Ev :=
  match readMetadata fs.cache with
  | none =>
    match refreshCycle env fs false with
    | (fs', evs) => (fs', Ev.outErrReadMeta :: Ev.outExecutingDownload :: evs)
  | some m =>
    if now > m.NextUpdate then
      match refreshCycle env fs true with
      | (fs', evs) => (fs', Ev.outUpdating :: evs)
    else
      (fs, [Ev.outUpToDate, Ev.outNextUpdate m.NextUpdate])

/-- Whether `backupTrivyDB` succeeds: the `MkdirAll` works, the cache
directory exists (else `copyDir`'s `ReadDir` fails) and the copy works. -/
def backupOk (env : Env) (fs : FS) : Bool :=
  env.backupMkdirOk && fs.cache.isSome && env.backupCopyOk

/-- Whether the metadata file inside a cache state is readable and its
`NextUpdate` field equals `t`. -/
def metaNextUpdateEq (c : Option CacheTree) (t : Int) : Bool :=
  match readMetadata c with
  | some m => m.NextUpdate == t
  | none => false

/-- A well-formed metadata document in the sense of the specification:
it unmarshals successfully and carries exactly the four recognised
fields (`Version`, `NextUpdate`, `UpdatedAt`, `DownloadedAt`), no others. -/
def Doc.wellFormed (d : Doc) : Prop :=
  d.version?.isSome ∧ d.nextUpdate?.isSome ∧ d.updatedAt?.isSome ∧
  d.downloadedAt?.isSome ∧ d.extras = [] ∧ (unmarshalDoc d).isSome

/-! Concrete instances used by witnesses and counterexamples. -/

/-- An environment in which every external operation succeeds; the tool
leaves a cache whose metadata records `NextUpdate = 900`. -/
def envAllOk : Env :=
  { backupMkdirOk := true, backupCopyOk := true, backupResidue := ⟨none, [1]⟩,
    trivyOk := true,
    trivySuccessCache := some ⟨some (.json (marshalDoc ⟨2, 900, 7, 8⟩)), [5]⟩,
    trivyFailCache := some ⟨some (.raw [0]), [0]⟩,
    restoreRemoveOk := true, restoreCopyOk := true, restoreResidue := ⟨none, [2]⟩,
    stampWriteOk := true, stampNow := 50 }

/-- Like `envAllOk` but the external tool exits non-zero. -/
def envFail : Env := { envAllOk with trivyOk := false }

/-- Like `envAllOk` but a successful tool run leaves a cache with no
metadata file, so the re-read after the update fails. -/
def envC8 : Env := { envAllOk with trivySuccessCache := some ⟨none, [9]⟩ }

/-- Like `envAllOk` but the backup copy fails midway. -/
def envBadCopy : Env := { envAllOk with backupCopyOk := false }

/-- Like `envAllOk` but creating the backup directory fails. -/
def envBadMkdir : Env := { envAllOk with backupMkdirOk := false }

/-- A cache with a canonical metadata file recording `NextUpdate = 100`. -/
def fsDueW : FS := ⟨some ⟨some (.json (marshalDoc ⟨1, 100, 5, 6⟩)), [4]⟩, none⟩

/-- A cache directory that exists but has no metadata file (bootstrap). -/
def fsBootW : FS := ⟨some ⟨none, [7]⟩, none⟩

end TrivyUpdater

namespace TrivyUpdater

/-! Helper lemmas. -/

/-- Go marshalling then unmarshalling of the metadata struct is the
identity. -/
theorem unmarshal_marshal (m : MetadataJSON) :
    unmarshalDoc (marshalDoc m) = some m := rfl

/-- The 4-hour re-arm offset is positive. -/
theorem fourHours_pos : (0 : Int) < fourHours := by decide

/-- `updateMetadataNextUpdate` emits no operational events. -/
theorem stamp_no_op_events (t : Int) (w : Bool) (c : Option CacheTree) :
    opEvents (updateMetadataNextUpdate t w c).2.2 = [] := by
  unfold updateMetadataNextUpdate
  cases c with
  | none => simp [opEvents]
  | some ct =>
    cases h : readMetadata (some ct) with
    | none => simp [opEvents, h]
    | some m => cases w <;> simp [opEvents, h, Ev.isOp]

/-- `restoreTrivyDB` emits no operational events. -/
theorem restore_no_op_events (env : Env) (fs : FS) :
    opEvents (restoreTrivyDB env fs).2.2 = [] := by
  unfold restoreTrivyDB
  cases hr : env.restoreRemoveOk with
  | false => simp [opEvents]
  | true =>
    cases hb : fs.backup with
    | none => simp [opEvents]
    | some b =>
      cases hc : env.restoreCopyOk with
      | false => simp [opEvents]
      | true =>
        have hst := stamp_no_op_events env.stampNow env.stampWriteOk (some b)
        rcases hup : updateMetadataNextUpdate env.stampNow env.stampWriteOk (some b) with
          ⟨c', ok, evs⟩
        rw [hup] at hst
        cases ok <;>
          simp_all [opEvents, List.filter_append, Ev.isOp]

/-- When the backup fails, a refresh branch stops after the backup
attempt: the cache is untouched, the error is reported, and neither the
external tool nor the restore is reached. -/
theorem refreshCycle_backup_fail (env : Env) (fs : FS) (cm : Bool)
    (hbk : backupOk env fs = false) :
    ∃ bk, refreshCycle env fs cm =
      (⟨fs.cache, bk⟩, [Ev.backupAttempt, Ev.outErrBackup]) := by
  unfold backupOk at hbk
  cases hm : env.backupMkdirOk with
  | false => exact ⟨none, by simp [refreshCycle, backupTrivyDB, hm]⟩
  | true =>
    cases hc : fs.cache with
    | none => exact ⟨some emptyTree, by simp [refreshCycle, backupTrivyDB, hm, hc]⟩
    | some c =>
      cases hco : env.backupCopyOk with
      | false =>
        exact ⟨some env.backupResidue, by simp [refreshCycle, backupTrivyDB, hm, hc, hco]⟩
      | true => rw [hm, hc, hco] at hbk; simp at hbk

/-- The operational events of a refresh branch: one backup attempt; one
execution attempt iff the backup succeeded; one restore attempt iff the
execution then failed. -/
theorem refreshCycle_op_events (env : Env) (fs : FS) (cm : Bool) :
    opEvents (refreshCycle env fs cm).2 =
      if backupOk env fs then
        (if env.trivyOk then [Ev.backupAttempt, Ev.execAttempt]
         else [Ev.backupAttempt, Ev.execAttempt, Ev.restoreAttempt])
      else [Ev.backupAttempt] := by
  cases hbk : backupOk env fs with
  | false =>
    obtain ⟨bk, hrc⟩ := refreshCycle_backup_fail env fs cm hbk
    simp [hrc, opEvents, Ev.isOp]
  | true =>
    have hbk' := hbk
    unfold backupOk at hbk'
    simp only [Bool.and_eq_true] at hbk'
    obtain ⟨⟨hm, hs⟩, hco⟩ := hbk'
    obtain ⟨c, hc⟩ := Option.isSome_iff_exists.mp hs
    cases ht : env.trivyOk with
    | true =>
      cases hr2 : readMetadata env.trivySuccessCache with
      | none =>
        cases cm <;>
          simp [refreshCycle, backupTrivyDB, runTrivyUpdateCommand,
            hm, hc, hco, ht, hbk, hr2, opEvents, Ev.isOp]
      | some m2 =>
        cases cm <;>
          simp [refreshCycle, backupTrivyDB, runTrivyUpdateCommand,
            hm, hc, hco, ht, hbk, hr2, opEvents, Ev.isOp]
    | false =>
      have hres := restore_no_op_events env ⟨env.trivyFailCache, some c⟩
      rcases hrt : restoreTrivyDB env ⟨env.trivyFailCache, some c⟩ with ⟨fs3, rok, ev3⟩
      rw [hrt] at hres
      cases rok <;>
        simp_all [refreshCycle, backupTrivyDB, runTrivyUpdateCommand,
          hm, hc, hco, ht, opEvents, Ev.isOp, List.filter_append]

/-- C2 counterexample: at the exactly-equal boundary
(`now = nextUpdateAt = 100`) the code's due check
`time.Now().After(NextUpdate)` is strict, so the orchestrator treats the
record as up to date and attempts no backup and no execution — the claim
asserts it attempts one of each. -/
theorem c2_counterexample :
    readMetadata fsDueW.cache = some ⟨1, 100, 5, 6⟩ ∧
    (runCycle envAllOk 100 fsDueW).2 = [Ev.outUpToDate, Ev.outNextUpdate 100] ∧
    opEvents (runCycle envAllOk 100 fsDueW).2 = [] := by decide

/-- C2 (amended): for every freshness record with `nextUpdateAt`
strictly before `now` — the due check is the strict `now > nextUpdateAt`,
so the exactly-equal boundary is treated as up to date — and for every
invocation where the metadata is absent or unparseable, the orchestrator
attempts exactly one backup, followed by exactly one external-tool
execution attempt iff the backup succeeded (and a restore attempt iff the
execution then failed). -/
theorem c2_due_attempts (env : Env) (now : Int) (fs : FS)
    (hdb : readMetadata fs.cache = none ∨
           ∃ m, readMetadata fs.cache = some m ∧ m.NextUpdate < now) :
    opEvents (runCycle env now fs).2 =
      if backupOk env fs then
        (if env.trivyOk then [Ev.backupAttempt, Ev.execAttempt]
         else [Ev.backupAttempt, Ev.execAttempt, Ev.restoreAttempt])
      else [Ev.backupAttempt] := by
  rcases hdb with h | ⟨m, hm, hlt⟩
  · rcases hrc : refreshCycle env fs false with ⟨fs', evs⟩
    have hop := refreshCycle_op_events env fs false
    rw [hrc] at hop
    simp only [runCycle, h, hrc]
    simpa [opEvents, Ev.isOp] using hop
  · rcases hrc : refreshCycle env fs true with ⟨fs', evs⟩
    have hop := refreshCycle_op_events env fs true
    rw [hrc] at hop
    simp only [runCycle, hm]
    rw [if_pos (by omega)]
    rw [hrc]
    simpa [opEvents, Ev.isOp] using hop

/-- Witness for `c2_due_attempts` at a concrete input (due record,
backup succeeds, tool fails). -/
theorem c2_due_attempts_witness :
    opEvents (runCycle envFail 200 fsDueW).2 =
      if backupOk envFail fsDueW then
        (if envFail.trivyOk then [Ev.backupAttempt, Ev.execAttempt]
         else [Ev.backupAttempt, Ev.execAttempt, Ev.restoreAttempt])
      else [Ev.backupAttempt] :=
  c2_due_attempts envFail 200 fsDueW (Or.inr ⟨⟨1, 100, 5, 6⟩, by decide, by decide⟩)

/-- C4: whenever the refresh is due (or the metadata is unreadable) and
the backup fails, the orchestrator aborts the cycle: it reports the
backup error, never invokes the external tool, never attempts a restore,
and leaves the cache directory untouched. -/
theorem c4_backup_failure_aborts (env : Env) (now : Int) (fs : FS)
    (hdb : readMetadata fs.cache = none ∨
           ∃ m, readMetadata fs.cache = some m ∧ m.NextUpdate < now)
    (hbk : backupOk env fs = false) :
    (runCycle env now fs).1.cache = fs.cache ∧
    opEvents (runCycle env now fs).2 = [Ev.backupAttempt] ∧
    Ev.outErrBackup ∈ (runCycle env now fs).2 ∧
    Ev.execAttempt ∉ (runCycle env now fs).2 ∧
    Ev.restoreAttempt ∉ (runCycle env now fs).2 := by
  rcases hdb with h | ⟨m, hm, hlt⟩
  · obtain ⟨bk, hrc⟩ := refreshCycle_backup_fail env fs false hbk
    simp only [runCycle, h, hrc]
    simp [opEvents, Ev.isOp]
  · obtain ⟨bk, hrc⟩ := refreshCycle_backup_fail env fs true hbk
    simp only [runCycle, hm]
    rw [if_pos (by omega)]
    rw [hrc]
    simp [opEvents, Ev.isOp]

/-- Witness for `c4_backup_failure_aborts` at a concrete input (due
record, backup directory creation fails). -/
theorem c4_backup_failure_aborts_witness :
    (runCycle envBadMkdir 200 fsDueW).1.cache = fsDueW.cache ∧
    opEvents (runCycle envBadMkdir 200 fsDueW).2 = [Ev.backupAttempt] ∧
    Ev.outErrBackup ∈ (runCycle envBadMkdir 200 fsDueW).2 ∧
    Ev.execAttempt ∉ (runCycle envBadMkdir 200 fsDueW).2 ∧
    Ev.restoreAttempt ∉ (runCycle envBadMkdir 200 fsDueW).2 :=
  c4_backup_failure_aborts envBadMkdir 200 fsDueW
    (Or.inr ⟨⟨1, 100, 5, 6⟩, by decide, by decide⟩) (by decide)

/-- C3: for every freshness record with `nextUpdateAt` strictly in the
future (`now < nextUpdateAt`), invoking the orchestrator performs no
backup and no subprocess execution, leaves the whole filesystem state —
in particular the cache directory — byte-for-byte unchanged, and reports
the existing `nextUpdateAt`. -/
theorem c3_up_to_date (env : Env) (now : Int) (fs : FS) (m : MetadataJSON)
    (hread : readMetadata fs.cache = some m)
    (hfresh : now < m.NextUpdate) :
    runCycle env now fs = (fs, [Ev.outUpToDate, Ev.outNextUpdate m.NextUpdate]) := by
  simp only [runCycle, hread]
  rw [if_neg (by omega)]

/-- Witness for `c3_up_to_date` at a concrete input. -/
theorem c3_up_to_date_witness :
    runCycle envAllOk 50 fsDueW = (fsDueW, [Ev.outUpToDate, Ev.outNextUpdate 100]) :=
  c3_up_to_date envAllOk 50 fsDueW ⟨1, 100, 5, 6⟩ (by decide) (by decide)

/-- C5: `stampNextUpdate` (`updateMetadataNextUpdate` with a successful
write) rewrites the metadata file to the same record with only
`NextUpdate` changed: `Version`, `UpdatedAt` and `DownloadedAt` are
preserved, the rest of the tree is untouched, and the new `NextUpdate`
equals `now + 4h`, strictly in the future of the write-time `now`. -/
theorem c5_stamp_preserves (t : Int) (ct : CacheTree) (m : MetadataJSON)
    (hread : readMetadata (some ct) = some m) :
    updateMetadataNextUpdate t true (some ct) =
      (some ⟨some (.json (marshalDoc
          ⟨m.Version, t + fourHours, m.UpdatedAt, m.DownloadedAt⟩)), ct.rest⟩,
       true, [Ev.outDelayNextUpdate (t + fourHours)]) ∧
    readMetadata (updateMetadataNextUpdate t true (some ct)).1 =
      some ⟨m.Version, t + fourHours, m.UpdatedAt, m.DownloadedAt⟩ ∧
    t < t + fourHours := by
  refine ⟨?_, ?_, by have := fourHours_pos; omega⟩
  · simp [updateMetadataNextUpdate, hread]
  · simp only [updateMetadataNextUpdate, hread]
    simp [readMetadata, unmarshal_marshal]

/-- Witness for `c5_stamp_preserves` at a concrete input. -/
theorem c5_stamp_preserves_witness :
    updateMetadataNextUpdate 50 true (some ⟨some (.json (marshalDoc ⟨1, 100, 5, 6⟩)), [4]⟩) =
      (some ⟨some (.json (marshalDoc ⟨1, 50 + fourHours, 5, 6⟩)), [4]⟩,
       true, [Ev.outDelayNextUpdate (50 + fourHours)]) ∧
    readMetadata (updateMetadataNextUpdate 50 true
        (some ⟨some (.json (marshalDoc ⟨1, 100, 5, 6⟩)), [4]⟩)).1 =
      some ⟨1, 50 + fourHours, 5, 6⟩ ∧
    (50 : Int) < 50 + fourHours :=
  c5_stamp_preserves 50 ⟨some (.json (marshalDoc ⟨1, 100, 5, 6⟩)), [4]⟩ ⟨1, 100, 5, 6⟩ (by decide)

/-- C6: a well-formed metadata document round-trips losslessly through
`read` then `write`: marshalling the unmarshalled record reproduces the
document exactly; and along the `NextUpdate`-rewriting path the written
document is the original with only its `NextUpdate` field replaced. -/
theorem c6_roundtrip (d : Doc) (m : MetadataJSON) (t : Int)
    (hwf : d.wellFormed) (hm : unmarshalDoc d = some m) :
    marshalDoc m = d ∧
    marshalDoc ⟨m.Version, t, m.UpdatedAt, m.DownloadedAt⟩ =
      { d with nextUpdate? := some (.jtime t) } := by
  obtain ⟨mv, mn, mu, md⟩ := m
  obtain ⟨d1, d2, d3, d4, dx⟩ := d
  obtain ⟨h1, h2, h3, h4, h5, -⟩ := hwf
  simp only at h1 h2 h3 h4 h5
  subst h5
  cases d1 with
  | none => simp at h1
  | some v1 =>
    cases d2 with
    | none => simp at h2
    | some v2 =>
      cases d3 with
      | none => simp at h3
      | some v3 =>
        cases d4 with
        | none => simp at h4
        | some v4 =>
          cases v1 <;> cases v2 <;> cases v3 <;> cases v4 <;>
            simp_all [unmarshalDoc, parseIntField, parseTimeField, marshalDoc]

/-- Witness for `c6_roundtrip` at a concrete input. -/
theorem c6_roundtrip_witness :
    marshalDoc ⟨1, 2, 3, 4⟩ = marshalDoc ⟨1, 2, 3, 4⟩ ∧
    marshalDoc ⟨1, 9, 3, 4⟩ =
      { marshalDoc ⟨1, 2, 3, 4⟩ with nextUpdate? := some (.jtime 9) } :=
  c6_roundtrip (marshalDoc ⟨1, 2, 3, 4⟩) ⟨1, 2, 3, 4⟩ 9
    ⟨rfl, rfl, rfl, rfl, rfl, rfl⟩ (by decide)

/-- C1 counterexample: a bootstrap refresh cycle (cache present, no
metadata file) in which the backup succeeds (`outBackedUp` is printed)
and the external tool then fails (`outUpdateFailed` is printed).  The
restore copies the tree back byte-for-byte, but the re-stamp fails on the
restored (still metadata-less) tree, so the cycle ends with no metadata
file at all: the claimed `NextUpdate = timeAtRollback + 4h` does not hold. -/
theorem c1_counterexample :
    Ev.outBackedUp ∈ (runCycle envFail 200 fsBootW).2 ∧
    Ev.outUpdateFailed ∈ (runCycle envFail 200 fsBootW).2 ∧
    (runCycle envFail 200 fsBootW).1.cache = some ⟨none, [7]⟩ ∧
    metaNextUpdateEq (runCycle envFail 200 fsBootW).1.cache
      (envFail.stampNow + fourHours) = false := by decide

/-- C1 (amended): for every refresh cycle in which the initial metadata
read succeeds on a canonically serialized metadata file, the refresh is
due, the backup succeeds, the external tool then fails, and the restore's
remove, copy and re-stamp write all succeed, the cache directory after
the cycle is byte-for-byte identical to its state immediately before the
backup, except the metadata file's `NextUpdate` field, which equals the
time sampled at rollback plus 4 hours. -/
theorem c1_rollback_restores (env : Env) (now : Int) (fs : FS) (c : CacheTree)
    (m : MetadataJSON)
    (hc : fs.cache = some c)
    (hmeta : c.meta = some (.json (marshalDoc m)))
    (hdue : m.NextUpdate < now)
    (hmk : env.backupMkdirOk = true) (hco : env.backupCopyOk = true)
    (ht : env.trivyOk = false)
    (hrr : env.restoreRemoveOk = true) (hrcp : env.restoreCopyOk = true)
    (hw : env.stampWriteOk = true) :
    (runCycle env now fs).1.cache =
      some ⟨some (.json { marshalDoc m with
        nextUpdate? := some (.jtime (env.stampNow + fourHours)) }), c.rest⟩ := by
  have hreadc : readMetadata (some c) = some m := by
    simp [readMetadata, hmeta, unmarshal_marshal]
  have hread : readMetadata fs.cache = some m := by rw [hc]; exact hreadc
  simp only [runCycle, hread]
  rw [if_pos (by omega)]
  simp [refreshCycle, backupTrivyDB, runTrivyUpdateCommand, restoreTrivyDB,
    updateMetadataNextUpdate, marshalDoc, hreadc, hc, hmk, hco, ht, hrr, hrcp, hw]

/-- Witness for `c1_rollback_restores` at a concrete input. -/
theorem c1_rollback_restores_witness :
    (runCycle envFail 200 fsDueW).1.cache =
      some ⟨some (.json { marshalDoc ⟨1, 100, 5, 6⟩ with
        nextUpdate? := some (.jtime (envFail.stampNow + fourHours)) }), [4]⟩ :=
  c1_rollback_restores envFail 200 fsDueW ⟨some (.json (marshalDoc ⟨1, 100, 5, 6⟩)), [4]⟩
    ⟨1, 100, 5, 6⟩ (by decide) (by decide) (by decide) (by decide) (by decide)
    (by decide) (by decide) (by decide) (by decide)

/-- C8 counterexample: a due refresh cycle in which the external tool
succeeds but leaves a cache whose metadata re-read fails.  The trace ends
at "Trivy DB update complete.": no failure of any kind is reported (the
re-read error is silently swallowed by `if err == nil` with no else
branch), refuting the claim that "the failure is reported".  No rollback
is performed, as the claim correctly states. -/
theorem c8_counterexample :
    readMetadata envC8.trivySuccessCache = none ∧
    (runCycle envC8 200 fsDueW).2 =
      [Ev.outUpdating, Ev.backupAttempt, Ev.outBackedUp, Ev.execAttempt,
       Ev.outUpdateComplete] ∧
    (runCycle envC8 200 fsDueW).2.all (fun e => !e.isFailureOut) = true ∧
    Ev.restoreAttempt ∉ (runCycle envC8 200 fsDueW).2 := by decide

/-- C8 (amended): for every cycle in which the backup succeeds and the
external tool succeeds, no rollback is performed and the cache keeps the
refreshed state; if the metadata re-read succeeds the new `nextUpdateAt`
is reported, and if the re-read fails nothing is reported for it — no
next-update line and no failure line (the error is silently dropped). -/
theorem c8_success_no_rollback (env : Env) (now : Int) (fs : FS)
    (hdb : readMetadata fs.cache = none ∨
           ∃ m, readMetadata fs.cache = some m ∧ m.NextUpdate < now)
    (hbk : backupOk env fs = true) (ht : env.trivyOk = true) :
    (runCycle env now fs).1.cache = env.trivySuccessCache ∧
    Ev.restoreAttempt ∉ (runCycle env now fs).2 ∧
    (match readMetadata env.trivySuccessCache with
     | some m2 => Ev.outNextUpdate m2.NextUpdate ∈ (runCycle env now fs).2
     | none =>
        (runCycle env now fs).2.all (fun e => !e.isNextReport) = true ∧
        (runCycle env now fs).2.all (fun e => !e.isFailureOut) = true) := by
  have hbk' := hbk
  unfold backupOk at hbk'
  simp only [Bool.and_eq_true] at hbk'
  obtain ⟨⟨hm, hs⟩, hco⟩ := hbk'
  obtain ⟨c, hc⟩ := Option.isSome_iff_exists.mp hs
  rcases hdb with h | ⟨m, hmr, hlt⟩
  · cases hr2 : readMetadata env.trivySuccessCache <;>
    · simp only [runCycle, h]
      simp [refreshCycle, backupTrivyDB, runTrivyUpdateCommand,
        hm, hc, hco, ht, hr2, Ev.isNextReport, Ev.isFailureOut]
  · cases hr2 : readMetadata env.trivySuccessCache <;>
    · simp only [runCycle, hmr]
      rw [if_pos (by omega)]
      simp [refreshCycle, backupTrivyDB, runTrivyUpdateCommand,
        hm, hc, hco, ht, hr2, Ev.isNextReport, Ev.isFailureOut]

/-- Witness for `c8_success_no_rollback` at a concrete input (due record,
successful update, readable new metadata). -/
theorem c8_success_no_rollback_witness :
    (runCycle envAllOk 200 fsDueW).1.cache = envAllOk.trivySuccessCache ∧
    Ev.restoreAttempt ∉ (runCycle envAllOk 200 fsDueW).2 ∧
    (match readMetadata envAllOk.trivySuccessCache with
     | some m2 => Ev.outNextUpdate m2.NextUpdate ∈ (runCycle envAllOk 200 fsDueW).2
     | none =>
        (runCycle envAllOk 200 fsDueW).2.all (fun e => !e.isNextReport) = true ∧
        (runCycle envAllOk 200 fsDueW).2.all (fun e => !e.isFailureOut) = true) :=
  c8_success_no_rollback envAllOk 200 fsDueW
    (Or.inr ⟨⟨1, 100, 5, 6⟩, by decide, by decide⟩) (by decide) (by decide)

/-- C9: backup is not atomic with respect to the backup slot.  When the
copy step of `backupTrivyDB` fails (the cache directory is missing so
`ReadDir` fails, or the copy fails midway), the previous backup has
already been discarded — the slot holds only the fresh directory or the
residue of the failed copy, independently of what the slot held before —
while the cache directory itself is untouched. -/
theorem c9_backup_clears_slot (env : Env) (fs : FS) (b : CacheTree)
    (hmk : env.backupMkdirOk = true)
    (hfail : fs.cache = none ∨ env.backupCopyOk = false) :
    (backupTrivyDB env fs).1.cache = fs.cache ∧
    (backupTrivyDB env fs).2.1 = false ∧
    (backupTrivyDB env fs).1.backup =
      (match fs.cache with
       | none => some emptyTree
       | some _ => some env.backupResidue) ∧
    (backupTrivyDB env ⟨fs.cache, some b⟩).1.backup = (backupTrivyDB env fs).1.backup := by
  rcases hfail with h | h
  · simp [backupTrivyDB, hmk, h]
  · cases hc : fs.cache <;> simp [backupTrivyDB, hmk, h, hc]

/-- Witness for `c9_backup_clears_slot` at a concrete input (copy fails
midway over an existing previous backup). -/
theorem c9_backup_clears_slot_witness :
    (backupTrivyDB envBadCopy fsDueW).1.cache = fsDueW.cache ∧
    (backupTrivyDB envBadCopy fsDueW).2.1 = false ∧
    (backupTrivyDB envBadCopy fsDueW).1.backup =
      (match fsDueW.cache with
       | none => some emptyTree
       | some _ => some envBadCopy.backupResidue) ∧
    (backupTrivyDB envBadCopy ⟨fsDueW.cache, some ⟨none, [3]⟩⟩).1.backup =
      (backupTrivyDB envBadCopy fsDueW).1.backup :=
  c9_backup_clears_slot envBadCopy fsDueW ⟨none, [3]⟩ (by decide) (Or.inr (by decide))

/-- C10: on the bootstrap path (cache directory present but metadata
missing or unparseable), if the backup succeeds, the external tool fails,
and the restore's remove and copy succeed, the rollback still ends in a
reported restore failure: the restored tree is a copy of the pre-backup
state, so its metadata is still unreadable, the re-stamp inside
`restoreTrivyDB` fails, and the cycle reports a restore error even though
the cache tree was fully restored (and the backup slot left in place). -/
theorem c10_bootstrap_rollback (env : Env) (now : Int) (fs : FS) (c : CacheTree)
    (hc : fs.cache = some c)
    (hread : readMetadata fs.cache = none)
    (hmk : env.backupMkdirOk = true) (hco : env.backupCopyOk = true)
    (ht : env.trivyOk = false)
    (hrr : env.restoreRemoveOk = true) (hrcp : env.restoreCopyOk = true) :
    runCycle env now fs = (⟨some c, some c⟩,
      [Ev.outErrReadMeta, Ev.outExecutingDownload, Ev.backupAttempt, Ev.outBackedUp,
       Ev.execAttempt, Ev.outUpdateFailed, Ev.restoreAttempt, Ev.outErrRestore]) := by
  have hreadc : readMetadata (some c) = none := by rw [← hc]; exact hread
  simp only [runCycle, hread]
  simp [refreshCycle, backupTrivyDB, runTrivyUpdateCommand, restoreTrivyDB,
    updateMetadataNextUpdate, hreadc, hc, hmk, hco, ht, hrr, hrcp]

/-- Witness for `c10_bootstrap_rollback` at a concrete input. -/
theorem c10_bootstrap_rollback_witness :
    runCycle envFail 200 fsBootW = (⟨some ⟨none, [7]⟩, some ⟨none, [7]⟩⟩,
      [Ev.outErrReadMeta, Ev.outExecutingDownload, Ev.backupAttempt, Ev.outBackedUp,
       Ev.execAttempt, Ev.outUpdateFailed, Ev.restoreAttempt, Ev.outErrRestore]) :=
  c10_bootstrap_rollback envFail 200 fsBootW ⟨none, [7]⟩ (by decide) (by decide)
    (by decide) (by decide) (by decide) (by decide) (by decide)

/-- C7: backup is idempotent in effect — running `backupTrivyDB` twice in
a row from any starting state (under the same external-world outcome)
produces the same filesystem state, success flag and output as running it
once, because each backup unconditionally discards the prior content of
the single-slot backup location before copying. -/
theorem c7_backup_idempotent (env : Env) (fs : FS) :
    backupTrivyDB env (backupTrivyDB env fs).1 = backupTrivyDB env fs := by
  cases hm : env.backupMkdirOk <;> cases hc : fs.cache <;> cases hco : env.backupCopyOk <;>
    simp [backupTrivyDB, hm, hc, hco]

end TrivyUpdater
